import Mathlib

/-!
Shallow embedding of the student-record store, adapter and demo driver
from `StudentSystem.h` and `main.cpp`.

Numeric model: C++ `float` and `double` values are represented by the
exact rational number they denote.  Narrowing conversions
(decimal literal → `double`, `static_cast<float>`) are modelled by IEEE
round-to-nearest, ties-to-even at the corresponding significand width
(53 bits for `double`, 24 bits for `float`); the exponent range is
unbounded in the model, which is faithful for all in-range values used
here (no overflow or subnormals occur).  `std::to_string(float)` is
modelled as fixed-point formatting with six fractional digits of the
exact stored value, rounded to nearest (ties to even), which is what
glibc `%f` produces for these values.
-/

namespace StudentSystem

/-- Fuel-driven binary logarithm on naturals; with fuel at least `n` it
computes the floor of `log2 n` (and `0` for `n < 2`). -/
def log2fuel : ℕ → ℕ → ℕ
  | 0, _ => 0
  | fuel + 1, n => if n < 2 then 0 else log2fuel fuel (n / 2) + 1

/-- Floor of the binary logarithm of a natural number. -/
def natLog2 (n : ℕ) : ℕ := log2fuel n n

/-- Round `n / d` (naturals, `d > 0`) to the nearest natural,
ties to even. -/
def roundScaledN (n d : ℕ) : ℕ :=
  let f := n / d
  let twice := 2 * (n % d)
  if twice < d then f
  else if d < twice then f + 1
  else if f % 2 = 0 then f else f + 1

/-- Whether `n / d < 2 ^ e` for naturals `n`, `d > 0` and an integer
exponent `e`, decided by integer cross-multiplication. -/
def ltPow2nd (n d : ℕ) (e : ℤ) : Bool :=
  if 0 ≤ e then n < 2 ^ e.toNat * d
  else n * 2 ^ (-e).toNat < d

/-- Binary exponent of the positive rational `n / d`: the `e` with
`2^e ≤ n/d < 2^(e+1)`, from `natLog2` of numerator and denominator
with adjustment. -/
def ilog2nd (n d : ℕ) : ℤ :=
  let a : ℤ := Int.ofNat (natLog2 n)
  let b : ℤ := Int.ofNat (natLog2 d)
  let e0 := a - b
  if ltPow2nd n d e0 then e0 - 1
  else if ltPow2nd n d (e0 + 1) then e0
  else e0 + 1

/-- Round a rational to the nearest binary floating-point value with a
`p`-bit significand (round to nearest, ties to even; unbounded exponent). -/
def roundPrec (p : ℕ) (q : ℚ) : ℚ :=
  if q.num = 0 then q
  else
    let n := q.num.natAbs
    let d := q.den
    let e := ilog2nd n d
    let s : ℤ := Int.ofNat p - 1 - e
    let m : ℤ :=
      if 0 ≤ s then Int.ofNat (roundScaledN (n * 2 ^ s.toNat) d)
      else Int.ofNat (roundScaledN n (d * 2 ^ (-s).toNat))
    let sm := if q.num < 0 then -m else m
    if 0 ≤ s then mkRat sm (2 ^ s.toNat)
    else mkRat (sm * Int.ofNat (2 ^ (-s).toNat)) 1

/-- Value of `static_cast<float>` applied to an exactly represented real:
round to the 24-bit significand of IEEE binary32. -/
def toFloat32 (q : ℚ) : ℚ := roundPrec 24 q

/-- Value of a real converted to IEEE binary64 (`double`): round to the
53-bit significand. -/
def toFloat64 (q : ℚ) : ℚ := roundPrec 53 q

/-- The `double` value denoted by a decimal source literal
`mantissa * 10^(-exp10)`, e.g. `doubleOfDecimal 375 2` for `3.75`. -/
def doubleOfDecimal (mantissa : ℤ) (exp10 : ℕ) : ℚ :=
  toFloat64 (mkRat mantissa (10 ^ exp10))

/-- Left-pad a digit string with zeros to width `w`. -/
def padZeros (w : ℕ) (s : String) : String :=
  String.mk (List.replicate (w - s.length) '0') ++ s

/-- Model of `std::to_string` on a `float` value: `%f` fixed-point
formatting with six fractional digits of the exact stored value. -/
def floatToString (q : ℚ) : String :=
  let sgn := if q.num < 0 then "-" else ""
  let n := roundScaledN (q.num.natAbs * 1000000) q.den
  sgn ++ toString (n / 1000000) ++ "." ++ padZeros 6 (toString (n % 1000000))

/-- Record type `StudentRecord` from `LegacyStudentDatabase` in `StudentSystem.h`:
`{ int studentId; std::string fullName; float academicScore; }`.
The `float` field is modelled by its exact rational value. -/
structure StudentRecord where
  studentId : Int
  fullName : String
  academicScore : ℚ
deriving DecidableEq

/-- The legacy (adaptee) store: a vector of records, modelled as a list
in storage order. -/
structure LegacyStudentDatabase where
  records : List StudentRecord
deriving DecidableEq

namespace LegacyStudentDatabase

/-- Legacy method `insertStudentRecord`: `records.push_back({...})` then a log line.
Returns the new store state together with the line printed. -/
def insertStudentRecord (db : LegacyStudentDatabase) (studentId : Int)
    (fullName : String) (academicScore : ℚ) : LegacyStudentDatabase × String :=
  (⟨db.records ++ [⟨studentId, fullName, academicScore⟩]⟩,
   "Legacy system: Added student with ID " ++ toString studentId)

/-- Legacy method `deleteStudentRecord`: `std::remove_if` + `erase` to the end removes
every record whose id matches, keeping the others in order (stable);
the erase branch is taken exactly when the returned iterator is not
`end()`, i.e. when at least one record matched. -/
def deleteStudentRecord (db : LegacyStudentDatabase) (studentId : Int) :
    LegacyStudentDatabase × String :=
  if db.records.any (fun r => r.studentId == studentId) then
    (⟨db.records.filter (fun r => !(r.studentId == studentId))⟩,
     "Legacy system: Removed student with ID " ++ toString studentId)
  else
    (db, "Legacy system: Student with ID " ++ toString studentId ++ " not found")

/-- Loop body of `updateStudentRecord`: scan in order, on the first
matching record overwrite name and score and return (early `return`);
`none` when no record matched. -/
def updateLoop (studentId : Int) (fullName : String) (academicScore : ℚ) :
    List StudentRecord → Option (List StudentRecord)
  | [] => none
  | r :: rs =>
    if r.studentId == studentId then
      some (⟨r.studentId, fullName, academicScore⟩ :: rs)
    else
      (updateLoop studentId fullName academicScore rs).map (fun l => r :: l)

/-- Legacy method `updateStudentRecord`: update the first match in place and stop, or
report "not found". -/
def updateStudentRecord (db : LegacyStudentDatabase) (studentId : Int)
    (fullName : String) (academicScore : ℚ) : LegacyStudentDatabase × String :=
  match updateLoop studentId fullName academicScore db.records with
  | some rs => (⟨rs⟩, "Legacy system: Updated student with ID " ++ toString studentId)
  | none => (db, "Legacy system: Student with ID " ++ toString studentId ++ " not found")

/-- Legacy method `getRecordCount`: `records.size()` returned as `int`. -/
def getRecordCount (db : LegacyStudentDatabase) : Int :=
  db.records.length

/-- Legacy method `fetchAllRecords`: a loop pushing one formatted string per record
onto a result vector, in storage order. -/
def fetchAllRecords (db : LegacyStudentDatabase) : List String :=
  db.records.foldl
    (fun result r =>
      result ++ ["ID: " ++ toString r.studentId ++
                 ", Name: " ++ r.fullName ++
                 ", Score: " ++ floatToString r.academicScore])
    []

end LegacyStudentDatabase

/-- The adapter: owns one legacy store instance. -/
structure StudentSystemAdapter where
  legacySystem : LegacyStudentDatabase
deriving DecidableEq

namespace StudentSystemAdapter

/-- A fresh adapter, as built by the constructor: empty store. -/
def new : StudentSystemAdapter := ⟨⟨[]⟩⟩

/-- Adapter method `addStudent`: narrow `gpa` (`double`) to `float`, delegate to
`insertStudentRecord`. -/
def addStudent (a : StudentSystemAdapter) (id : Int) (name : String)
    (gpa : ℚ) : StudentSystemAdapter × String :=
  let academicScore := toFloat32 gpa
  let p := a.legacySystem.insertStudentRecord id name academicScore
  (⟨p.1⟩, p.2)

/-- Adapter method `removeStudent`: delegate to `deleteStudentRecord`. -/
def removeStudent (a : StudentSystemAdapter) (id : Int) :
    StudentSystemAdapter × String :=
  let p := a.legacySystem.deleteStudentRecord id
  (⟨p.1⟩, p.2)

/-- Adapter method `updateStudentDetails`: narrow `gpa` to `float`, delegate to
`updateStudentRecord`. -/
def updateStudentDetails (a : StudentSystemAdapter) (id : Int) (name : String)
    (gpa : ℚ) : StudentSystemAdapter × String :=
  let academicScore := toFloat32 gpa
  let p := a.legacySystem.updateStudentRecord id name academicScore
  (⟨p.1⟩, p.2)

/-- Adapter method `getAllStudentsInfo`: delegate to `fetchAllRecords`. -/
def getAllStudentsInfo (a : StudentSystemAdapter) : List String :=
  a.legacySystem.fetchAllRecords

/-- Adapter method `getTotalStudents`: delegate to `getRecordCount`. -/
def getTotalStudents (a : StudentSystemAdapter) : Int :=
  a.legacySystem.getRecordCount

end StudentSystemAdapter

/-- Adapter state after the three `registerNewStudent` calls of `main`. -/
def demoAfterAdds : StudentSystemAdapter :=
  (((StudentSystemAdapter.new.addStudent 1001 "John Smith"
        (doubleOfDecimal 375 2)).1.addStudent 1002 "Emily Johnson"
        (doubleOfDecimal 392 2)).1.addStudent 1003 "Michael Brown"
        (doubleOfDecimal 345 2)).1

/-- Adapter state after `removeStudent(1002)` in `main`. -/
def demoAfterRemove : StudentSystemAdapter :=
  (demoAfterAdds.removeStudent 1002).1

/-- Adapter state after `updateStudentDetails(1003, "Michael Brown Jr.", 3.85)`
in `main`. -/
def demoAfterUpdate : StudentSystemAdapter :=
  (demoAfterRemove.updateStudentDetails 1003 "Michael Brown Jr."
    (doubleOfDecimal 385 2)).1

/-- An arbitrary store operation, for reasoning about operation
sequences against the legacy store. -/
inductive Op where
  | insertOp (id : Int) (name : String) (score : ℚ)
  | deleteOp (id : Int)
  | updateOp (id : Int) (name : String) (score : ℚ)

/-- A store together with counters observed along a run: number of
inserts performed, number of delete calls that took the success branch,
and total number of records the delete calls matched (and removed). -/
structure RunStats where
  db : LegacyStudentDatabase
  inserts : ℕ
  successfulDeletes : ℕ
  removedRecords : ℕ

/-- One step of a run: perform the operation and update the counters.
A delete is counted successful exactly when the code takes the erase
branch, i.e. when at least one record matches; `removedRecords` grows
by the number of records whose id matches at the time of the call. -/
def stepOp (s : RunStats) : Op → RunStats
  | .insertOp i n sc =>
    ⟨(s.db.insertStudentRecord i n sc).1, s.inserts + 1,
     s.successfulDeletes, s.removedRecords⟩
  | .deleteOp i =>
    let m := s.db.records.countP (fun r => r.studentId == i)
    ⟨(s.db.deleteStudentRecord i).1, s.inserts,
     s.successfulDeletes + (if 0 < m then 1 else 0), s.removedRecords + m⟩
  | .updateOp i n sc =>
    ⟨(s.db.updateStudentRecord i n sc).1, s.inserts,
     s.successfulDeletes, s.removedRecords⟩

/-- Run a sequence of operations from a given instrumented state. -/
def runOps (s : RunStats) (ops : List Op) : RunStats :=
  ops.foldl stepOp s

/-- Run a sequence of inserts (id, name, score) against a store. -/
def runInserts (db : LegacyStudentDatabase) :
    List (Int × String × ℚ) → LegacyStudentDatabase
  | [] => db
  | (i, n, s) :: rest => runInserts (db.insertStudentRecord i n s).1 rest

end StudentSystem

namespace StudentSystem

open LegacyStudentDatabase

/-- Folding push-back of one formatted element per record equals
prepending the accumulator to the map. -/
lemma foldl_push {α β : Type} (f : α → β) (l : List α) :
    ∀ acc : List β, l.foldl (fun res r => res ++ [f r]) acc = acc ++ l.map f := by
  induction l with
  | nil => intro acc; simp
  | cons x xs ih => intro acc; simp [List.foldl, ih]

/-- Unfolded form of `fetchAllRecords`: one formatted line per record. -/
lemma fetchAllRecords_eq_map (db : LegacyStudentDatabase) :
    db.fetchAllRecords = db.records.map (fun r =>
      "ID: " ++ toString r.studentId ++ ", Name: " ++ r.fullName ++
      ", Score: " ++ floatToString r.academicScore) := by
  unfold fetchAllRecords
  simpa using foldl_push _ db.records []

/-- Removing the elements satisfying a predicate shrinks the length by
exactly the number of elements satisfying it. -/
lemma length_filter_not_add_countP {α : Type} (p : α → Bool) (l : List α) :
    (l.filter (fun a => !(p a))).length + l.countP p = l.length := by
  induction l with
  | nil => simp
  | cons x xs ih =>
    by_cases h : p x <;> simp [List.countP_cons, h] <;> omega

/-- Filtering with a predicate no element fails keeps the list intact. -/
lemma filter_not_eq_self_of_all_false {α : Type} (p : α → Bool) (l : List α)
    (h : ∀ a ∈ l, p a = false) : l.filter (fun a => !(p a)) = l := by
  induction l with
  | nil => rfl
  | cons x xs ih =>
    have hx := h x (List.mem_cons_self x xs)
    simp [hx, ih (fun a ha => h a (List.mem_cons_of_mem x ha))]

/-- Counting with a predicate no element satisfies gives zero. -/
lemma countP_eq_zero_of_all_false {α : Type} (p : α → Bool) (l : List α)
    (h : ∀ a ∈ l, p a = false) : l.countP p = 0 := by
  induction l with
  | nil => rfl
  | cons x xs ih =>
    have hx := h x (List.mem_cons_self x xs)
    simp [List.countP_cons, hx, ih (fun a ha => h a (List.mem_cons_of_mem x ha))]

/-- Deletion always leaves exactly the records whose id does not match,
in their original order. -/
lemma deleteStudentRecord_records (db : LegacyStudentDatabase) (id : Int) :
    (db.deleteStudentRecord id).1.records
      = db.records.filter (fun r => !(r.studentId == id)) := by
  unfold deleteStudentRecord
  by_cases h : db.records.any (fun r => r.studentId == id)
  · simp [h]
  · simp only [h, Bool.false_eq_true, if_false]
    have hall : ∀ r ∈ db.records, (r.studentId == id) = false := by
      intro r hr
      cases hb : (r.studentId == id) with
      | false => rfl
      | true => exact absurd (List.any_eq_true.mpr ⟨r, hr, hb⟩) h
    exact (filter_not_eq_self_of_all_false _ _ hall).symm

/-- Deletion removes exactly the matching records: the length drops by
the match count. -/
lemma deleteStudentRecord_length (db : LegacyStudentDatabase) (id : Int) :
    (db.deleteStudentRecord id).1.records.length
      + db.records.countP (fun r => r.studentId == id)
      = db.records.length := by
  rw [deleteStudentRecord_records]
  exact length_filter_not_add_countP _ _

/-- A successful inner update preserves the list length. -/
lemma updateLoop_length (id : Int) (n : String) (sc : ℚ) :
    ∀ (l rs : List StudentRecord),
      updateLoop id n sc l = some rs → rs.length = l.length := by
  intro l
  induction l with
  | nil => intro rs h; simp [updateLoop] at h
  | cons r t ih =>
    intro rs h
    by_cases hm : (r.studentId == id) = true
    · simp [updateLoop, hm] at h
      subst h
      simp
    · simp only [updateLoop, hm, Bool.false_eq_true, if_false,
        Option.map_eq_some'] at h
      obtain ⟨l', hl', rfl⟩ := h
      simp [ih l' hl']

/-- Updating never changes the number of records. -/
lemma updateStudentRecord_length (db : LegacyStudentDatabase) (id : Int)
    (n : String) (sc : ℚ) :
    (db.updateStudentRecord id n sc).1.records.length = db.records.length := by
  unfold updateStudentRecord
  cases h : updateLoop id n sc db.records with
  | none => rfl
  | some rs => simpa using updateLoop_length id n sc db.records rs h

/-- Scanning past a non-matching head of the update loop. -/
lemma updateLoop_spec (id : Int) (n : String) (sc : ℚ) :
    ∀ (pre : List StudentRecord) (r : StudentRecord) (post : List StudentRecord),
      (∀ x ∈ pre, (x.studentId == id) = false) → r.studentId = id →
      updateLoop id n sc (pre ++ r :: post)
        = some (pre ++ ⟨r.studentId, n, sc⟩ :: post) := by
  intro pre
  induction pre with
  | nil =>
    intro r post _ hr
    simp [updateLoop, hr]
  | cons x t ih =>
    intro r post hpre hr
    have hx := hpre x (List.mem_cons_self x t)
    have ht := ih r post (fun y hy => hpre y (List.mem_cons_of_mem x hy)) hr
    simp only [List.cons_append, updateLoop, hx, Bool.false_eq_true, if_false,
      List.append_eq, ht, Option.map_some']

/-- Along any instrumented run, length plus records removed so far minus
inserts so far is invariant. -/
lemma runOps_inv (ops : List Op) :
    ∀ s : RunStats,
      (runOps s ops).db.records.length + (runOps s ops).removedRecords
          + s.inserts
        = s.db.records.length + s.removedRecords + (runOps s ops).inserts := by
  induction ops with
  | nil => intro s; simp [runOps]
  | cons op rest ih =>
    intro s
    have h := ih (stepOp s op)
    have hstep : runOps s (op :: rest) = runOps (stepOp s op) rest := rfl
    rw [hstep]
    cases op with
    | insertOp i nm sc =>
      have hlen : (s.db.insertStudentRecord i nm sc).1.records.length
          = s.db.records.length + 1 := by
        simp [insertStudentRecord]
      simp only [stepOp] at h ⊢
      omega
    | deleteOp i =>
      have hdel := deleteStudentRecord_length s.db i
      simp only [stepOp] at h ⊢
      omega
    | updateOp i nm sc =>
      have hupd := updateStudentRecord_length s.db i nm sc
      simp only [stepOp] at h ⊢
      omega

/-- Each insert grows the store by exactly one record. -/
lemma runInserts_length :
    ∀ (l : List (Int × String × ℚ)) (db : LegacyStudentDatabase),
      (runInserts db l).records.length = db.records.length + l.length := by
  intro l
  induction l with
  | nil => intro db; simp [runInserts]
  | cons x rest ih =>
    intro db
    obtain ⟨i, n, sc⟩ := x
    simp only [runInserts, ih, insertStudentRecord, List.length_append,
      List.length_cons, List.length_nil]
    omega

/-- C1: the scripted demo — add (1001,"John Smith",3.75),
(1002,"Emily Johnson",3.92), (1003,"Michael Brown",3.45), remove 1002,
update 1003 to ("Michael Brown Jr.",3.85) — yields total 3 after the
adds, total 2 after the removal with exactly the entries for 1001 and
1003 in that order, and after the update the 1003 line shows the new
name and score while the 1001 line is unchanged. -/
theorem demo_scenario_correct :
    demoAfterAdds.getTotalStudents = 3
    ∧ demoAfterRemove.getTotalStudents = 2
    ∧ demoAfterRemove.getAllStudentsInfo =
        ["ID: 1001, Name: John Smith, Score: 3.750000",
         "ID: 1003, Name: Michael Brown, Score: 3.450000"]
    ∧ demoAfterUpdate.getAllStudentsInfo =
        ["ID: 1001, Name: John Smith, Score: 3.750000",
         "ID: 1003, Name: Michael Brown Jr., Score: 3.850000"] :=
  ⟨by decide, by decide, by decide, by decide⟩

/-- C2 counterexample: after inserting two records with the same id and
one successful delete, the size (0) differs from inserts minus
successful deletes (2 - 1 = 1), because the delete removed both
matching records. -/
theorem size_accounting_claim_counterexample :
    ¬ ((runOps ⟨⟨[]⟩, 0, 0, 0⟩
          [Op.insertOp 1 "a" (mkRat 0 1), Op.insertOp 1 "b" (mkRat 0 1),
           Op.deleteOp 1]).db.getRecordCount
        = Int.ofNat (runOps ⟨⟨[]⟩, 0, 0, 0⟩
            [Op.insertOp 1 "a" (mkRat 0 1), Op.insertOp 1 "b" (mkRat 0 1),
             Op.deleteOp 1]).inserts
          - Int.ofNat (runOps ⟨⟨[]⟩, 0, 0, 0⟩
              [Op.insertOp 1 "a" (mkRat 0 1), Op.insertOp 1 "b" (mkRat 0 1),
               Op.deleteOp 1]).successfulDeletes) := by
  decide

/-- C2 (amended): at every point of any operation sequence, count()
equals the number of inserts performed minus the total number of records
removed by deleteById calls; each deleteById call removes exactly the
records whose id matches (so a successful call with duplicate ids can
decrease the size by more than one), and its log line reports success
exactly when at least one record matches. -/
theorem store_size_accounting :
    (∀ (db : LegacyStudentDatabase) (ops : List Op),
        (runOps ⟨db, 0, 0, 0⟩ ops).db.getRecordCount
            + ((runOps ⟨db, 0, 0, 0⟩ ops).removedRecords : ℤ)
          = db.getRecordCount + ((runOps ⟨db, 0, 0, 0⟩ ops).inserts : ℤ))
    ∧ (∀ (db : LegacyStudentDatabase) (id : Int),
        (db.deleteStudentRecord id).1.records.length
            + db.records.countP (fun r => r.studentId == id)
          = db.records.length
        ∧ (db.deleteStudentRecord id).2 =
            (if 0 < db.records.countP (fun r => r.studentId == id)
             then "Legacy system: Removed student with ID " ++ toString id
             else "Legacy system: Student with ID " ++ toString id
                    ++ " not found")) := by
  constructor
  · intro db ops
    have h := runOps_inv ops ⟨db, 0, 0, 0⟩
    simp only [getRecordCount] at *
    omega
  · intro db id
    refine ⟨deleteStudentRecord_length db id, ?_⟩
    by_cases h : db.records.any (fun r => r.studentId == id) = true
    · have hc : 0 < db.records.countP (fun r => r.studentId == id) := by
        obtain ⟨r, hr, hp⟩ := List.any_eq_true.mp h
        exact List.countP_pos_iff.mpr ⟨r, hr, hp⟩
      simp [deleteStudentRecord, h, hc]
    · have hc : ¬ 0 < db.records.countP (fun r => r.studentId == id) := by
        intro hpos
        obtain ⟨r, hr, hp⟩ := List.countP_pos_iff.mp hpos
        exact h (List.any_eq_true.mpr ⟨r, hr, hp⟩)
      simp [deleteStudentRecord, h, hc]

/-- C3: deleteById removes every record whose id matches (stable
partition-and-erase), and on a store with no matching record it leaves
the store and count unchanged and reports the id as not found, with no
error raised (the operation is total). -/
theorem deleteById_removes_all_matches (db : LegacyStudentDatabase) (id : Int) :
    (db.deleteStudentRecord id).1.records
        = db.records.filter (fun r => !(r.studentId == id))
    ∧ ((∀ r ∈ db.records, r.studentId ≠ id) →
        (db.deleteStudentRecord id).1 = db
        ∧ (db.deleteStudentRecord id).1.getRecordCount = db.getRecordCount
        ∧ (db.deleteStudentRecord id).2 =
            "Legacy system: Student with ID " ++ toString id ++ " not found") := by
  refine ⟨deleteStudentRecord_records db id, ?_⟩
  intro hall
  have hany : db.records.any (fun r => r.studentId == id) = false := by
    cases h : db.records.any (fun r => r.studentId == id) with
    | false => rfl
    | true =>
      obtain ⟨r, hr, hp⟩ := List.any_eq_true.mp h
      exact absurd (by simpa using hp) (hall r hr)
  simp [deleteStudentRecord, hany]

/-- C3 witness: deleting id 9 from a store holding only id 7 leaves the
store and count unchanged and produces the not-found line. -/
theorem deleteById_not_found_witness :
    ((⟨[⟨7, "x", mkRat 1 2⟩]⟩ : LegacyStudentDatabase).deleteStudentRecord 9).1
        = (⟨[⟨7, "x", mkRat 1 2⟩]⟩ : LegacyStudentDatabase)
    ∧ ((⟨[⟨7, "x", mkRat 1 2⟩]⟩ :
          LegacyStudentDatabase).deleteStudentRecord 9).1.getRecordCount
        = (⟨[⟨7, "x", mkRat 1 2⟩]⟩ : LegacyStudentDatabase).getRecordCount
    ∧ ((⟨[⟨7, "x", mkRat 1 2⟩]⟩ :
          LegacyStudentDatabase).deleteStudentRecord 9).2 =
        "Legacy system: Student with ID " ++ toString (9 : Int)
          ++ " not found" :=
  (deleteById_removes_all_matches ⟨[⟨7, "x", mkRat 1 2⟩]⟩ 9).2 (by decide)

/-- C4: when the store splits as pre ++ r :: post with no match in pre
and r matching, updateById rewrites only r's name and score in place
(id kept), leaves pre and post — later duplicates included — untouched,
preserves count, and logs success. -/
theorem updateById_updates_first_match_only
    (db : LegacyStudentDatabase) (id : Int) (name : String) (score : ℚ)
    (pre : List StudentRecord) (r : StudentRecord) (post : List StudentRecord)
    (hsplit : db.records = pre ++ r :: post)
    (hpre : ∀ x ∈ pre, x.studentId ≠ id)
    (hr : r.studentId = id) :
    (db.updateStudentRecord id name score).1.records
        = pre ++ ⟨id, name, score⟩ :: post
    ∧ (db.updateStudentRecord id name score).1.getRecordCount
        = db.getRecordCount
    ∧ (db.updateStudentRecord id name score).2 =
        "Legacy system: Updated student with ID " ++ toString id := by
  have hpre' : ∀ x ∈ pre, (x.studentId == id) = false := by
    intro x hx
    simpa using hpre x hx
  have hl := updateLoop_spec id name score pre r post hpre' hr
  have hrec : (db.updateStudentRecord id name score).1.records
        = pre ++ ⟨r.studentId, name, score⟩ :: post
      ∧ (db.updateStudentRecord id name score).2 =
          "Legacy system: Updated student with ID " ++ toString id := by
    unfold updateStudentRecord
    rw [hsplit, hl]
    exact ⟨rfl, rfl⟩
  refine ⟨?_, ?_, hrec.2⟩
  · rw [hrec.1, hr]
  · simp [getRecordCount, updateStudentRecord_length]

/-- C4 witness: with two records of id 1, updating id 1 rewrites only
the first one; the second duplicate, the order and the count survive. -/
theorem updateById_first_match_witness :
    ((⟨[⟨1, "a", mkRat 0 1⟩, ⟨1, "b", mkRat 0 1⟩]⟩ :
        LegacyStudentDatabase).updateStudentRecord 1 "c" (mkRat 2 1)).1.records
        = [] ++ ⟨1, "c", mkRat 2 1⟩ :: [⟨1, "b", mkRat 0 1⟩]
    ∧ ((⟨[⟨1, "a", mkRat 0 1⟩, ⟨1, "b", mkRat 0 1⟩]⟩ :
          LegacyStudentDatabase).updateStudentRecord 1 "c"
          (mkRat 2 1)).1.getRecordCount
        = (⟨[⟨1, "a", mkRat 0 1⟩, ⟨1, "b", mkRat 0 1⟩]⟩ :
            LegacyStudentDatabase).getRecordCount
    ∧ ((⟨[⟨1, "a", mkRat 0 1⟩, ⟨1, "b", mkRat 0 1⟩]⟩ :
          LegacyStudentDatabase).updateStudentRecord 1 "c" (mkRat 2 1)).2 =
        "Legacy system: Updated student with ID " ++ toString (1 : Int) :=
  updateById_updates_first_match_only
    ⟨[⟨1, "a", mkRat 0 1⟩, ⟨1, "b", mkRat 0 1⟩]⟩ 1 "c" (mkRat 2 1)
    [] ⟨1, "a", mkRat 0 1⟩ [⟨1, "b", mkRat 0 1⟩] rfl (by decide) rfl

/-- C5: insert appends a new record at the end unconditionally and
always succeeds; a record with a duplicate id does not replace the
existing one — the match count for that id grows by one and all prior
records survive as the prefix of the new sequence. -/
theorem insert_appends_unconditionally
    (db : LegacyStudentDatabase) (id : Int) (name : String) (score : ℚ) :
    (db.insertStudentRecord id name score).1.records
        = db.records ++ [⟨id, name, score⟩]
    ∧ (db.insertStudentRecord id name score).1.records.countP
          (fun r => r.studentId == id)
        = db.records.countP (fun r => r.studentId == id) + 1
    ∧ (db.insertStudentRecord id name score).2 =
        "Legacy system: Added student with ID " ++ toString id := by
  refine ⟨rfl, ?_, rfl⟩
  simp [insertStudentRecord, List.countP_append, List.countP_cons]

/-- C6: starting from an empty store, after the first k of a sequence of
inserts with pairwise-distinct ids (and no deletes), count() equals k. -/
theorem distinct_inserts_count
    (l : List (Int × String × ℚ))
    (_hdist : l.Pairwise (fun a b => a.1 ≠ b.1))
    (k : ℕ) (hk : k ≤ l.length) :
    (runInserts ⟨[]⟩ (l.take k)).getRecordCount = (k : ℤ) := by
  have h := runInserts_length (l.take k) ⟨[]⟩
  have h2 : (l.take k).length = k := by
    rw [List.length_take]
    omega
  simp [getRecordCount, h, h2]

/-- C6 witness: two inserts with distinct ids, after the first one the
count is one. -/
theorem distinct_inserts_count_witness :
    (runInserts ⟨[]⟩
        ([((1 : Int), "a", mkRat 0 1), ((2 : Int), "b", mkRat 0 1)].take 1)
      ).getRecordCount = ((1 : ℕ) : ℤ) :=
  distinct_inserts_count [(1, "a", mkRat 0 1), (2, "b", mkRat 0 1)]
    (by decide) 1 (by decide)

/-- C7: every adapter operation delegates 1:1 to the corresponding store
operation — add and update narrow the double gpa to single precision
before delegating, remove passes the id through, and listAll and total
return the store results unchanged; no extra state is consulted. -/
theorem adapter_delegates_one_to_one :
    ∀ (a : StudentSystemAdapter) (id : Int) (name : String) (gpa : ℚ),
      ((a.addStudent id name gpa).1.legacySystem, (a.addStudent id name gpa).2)
          = a.legacySystem.insertStudentRecord id name (toFloat32 gpa)
      ∧ ((a.removeStudent id).1.legacySystem, (a.removeStudent id).2)
          = a.legacySystem.deleteStudentRecord id
      ∧ ((a.updateStudentDetails id name gpa).1.legacySystem,
            (a.updateStudentDetails id name gpa).2)
          = a.legacySystem.updateStudentRecord id name (toFloat32 gpa)
      ∧ a.getAllStudentsInfo = a.legacySystem.fetchAllRecords
      ∧ a.getTotalStudents = a.legacySystem.getRecordCount :=
  fun _ _ _ _ => ⟨rfl, rfl, rfl, rfl, rfl⟩

/-- C8: dumpAll returns one formatted string per record, in storage
order, of the form "ID: ..., Name: ..., Score: ..." with the stored
float rendered by the default decimal text representation. -/
theorem fetchAllRecords_formats_in_order (db : LegacyStudentDatabase) :
    db.fetchAllRecords = db.records.map (fun r =>
      "ID: " ++ toString r.studentId ++ ", Name: " ++ r.fullName ++
      ", Score: " ++ floatToString r.academicScore) :=
  fetchAllRecords_eq_map db

/-- C9: adding the double 3.14159265358979 stores its single-precision
narrowing, which is a different rational value — round-trip equality
between the double passed in and the value kept fails. -/
theorem score_narrowing_lossy :
    (StudentSystemAdapter.new.addStudent 1 "A"
        (doubleOfDecimal 314159265358979 14)).1.legacySystem.records
        = [⟨1, "A", toFloat32 (doubleOfDecimal 314159265358979 14)⟩]
    ∧ toFloat32 (doubleOfDecimal 314159265358979 14)
        ≠ doubleOfDecimal 314159265358979 14 :=
  ⟨rfl, by decide⟩

/-- C10: the number of strings dumpAll returns always equals count() —
exactly one line per stored record. -/
theorem dump_length_matches_count (db : LegacyStudentDatabase) :
    ((db.fetchAllRecords).length : ℤ) = db.getRecordCount := by
  rw [fetchAllRecords_eq_map]
  simp [getRecordCount]

end StudentSystem
